import Mathlib

/-!
The in-memory store of argus (`store/inmem/InMem.go`).

A shallow embedding of the four operations of `InMem` (`Push`, `Get`, `GetAll`,
`Delete`) and of the constructor `ProvideInMem`, with the properties of the
store's contract proved about them.

Modelling choices.

* A Go `map[string]T` is a finite map with string keys, `Finmap`; two maps are
  equal when they hold the same entries.  The maps of a store are allocated
  maps: `ProvideInMem` allocates the outer one and `Push` allocates every
  inner one, and no operation stores a nil map.
* The methods have a pointer receiver and mutate the store in place; here every
  operation takes the store and returns the store it leaves behind together
  with its Go results.
* The reader/writer lock is not part of the sequential model.
* `store.OwnableItem` is a type parameter; its Go zero value is `default`.
* `store.SanitizeError` is declared outside this file and is a parameter of
  the operations that call it.  Taking the identity for it shows the error
  that is handed to it.
-/

namespace inmem

/-- The two-part key `model.Key`. -/
structure Key where
  Bucket : String
  ID : String
deriving DecidableEq, Repr

/-- The values of Go's `error` interface that the store builds: the two
sentinels `store.ErrBucketNotFound` and `store.ErrItemNotFound`, and the two
wrappers `store.ItemOperationError` and `store.GetAllItemsOperationErr`.
A nil `error` is `none : Option Error`. -/
inductive Error where
  | ErrBucketNotFound : Error
  | ErrItemNotFound : Error
  | ItemOperationError (Err : Error) (Key : Key) (Operation : String) : Error
  | GetAllItemsOperationErr (Err : Error) (Bucket : String) : Error
deriving DecidableEq, Repr

/-- A Go `map[string]T`. -/
abbrev GoMap (T : Type) : Type := Finmap (fun _ : String => T)

/-- The struct `InMem`: `data map[string]map[string]store.OwnableItem`. -/
structure InMem (Item : Type) where
  data : GoMap (GoMap Item)

/-- The constructor `ProvideInMem`: a store whose outer map is allocated and empty. -/
def ProvideInMem (Item : Type) : InMem Item :=
  { data := ∅ }

variable {Item : Type} {ε : Type}

/-- The method `(*InMem).Push`: creates the bucket's inner map with the one entry when the
bucket has no entry, sets the entry in the existing inner map otherwise;
returns a nil error. -/
def InMem.Push (i : InMem Item) (key : Key) (item : Item) : InMem Item × Option Error :=
  match i.data.lookup key.Bucket with
  | none => ({ data := i.data.insert key.Bucket (Finmap.singleton key.ID item) }, none)
  | some bucket => ({ data := i.data.insert key.Bucket (bucket.insert key.ID item) }, none)

/-- The method `(*InMem).Get`: the item under the key, or the zero item with the wrapped
cause; the error goes through `SanitizeError`. -/
def InMem.Get [Inhabited Item] (SanitizeError : Option Error → ε) (i : InMem Item) (key : Key) :
    InMem Item × Item × ε :=
  let r : Item × Option Error :=
    match i.data.lookup key.Bucket with
    | none => (default, some Error.ErrBucketNotFound)
    | some bucket =>
      match bucket.lookup key.ID with
      | none => (default, some Error.ErrItemNotFound)
      | some value => (value, none)
  let err : Option Error :=
    match r.2 with
    | some e => some (Error.ItemOperationError e key "get")
    | none => none
  (i, r.1, SanitizeError err)

/-- The method `(*InMem).GetAll`: the bucket's inner map, or a nil map (`none`) with the
wrapped cause; the error goes through `SanitizeError`. -/
def InMem.GetAll (SanitizeError : Option Error → ε) (i : InMem Item) (bucket : String) :
    InMem Item × Option (GoMap Item) × ε :=
  let r : Option (GoMap Item) × Option Error :=
    match i.data.lookup bucket with
    | some item => (some item, none)
    | none => (none, some Error.ErrBucketNotFound)
  let err : Option Error :=
    match r.2 with
    | some e => some (Error.GetAllItemsOperationErr e bucket)
    | none => none
  (i, r.1, SanitizeError err)

/-- The method `(*InMem).Delete`: removes the entry under the key and returns its item, or
the zero item with the wrapped cause; the error goes through `SanitizeError`. -/
def InMem.Delete [Inhabited Item] (SanitizeError : Option Error → ε) (i : InMem Item)
    (key : Key) : InMem Item × Item × ε :=
  let r : InMem Item × Item × Option Error :=
    match i.data.lookup key.Bucket with
    | none => (i, default, some Error.ErrBucketNotFound)
    | some bucket =>
      match bucket.lookup key.ID with
      | none => (i, default, some Error.ErrItemNotFound)
      | some value =>
        ({ data := i.data.insert key.Bucket (bucket.erase key.ID) }, value, none)
  let err : Option Error :=
    match r.2.2 with
    | some e => some (Error.ItemOperationError e key "delete")
    | none => none
  (r.1, r.2.1, SanitizeError err)

/-- A store with the one bucket "b" holding the one item 7 under "x". -/
def sampleStore : InMem Nat :=
  ((ProvideInMem Nat).Push ⟨"b", "x"⟩ 7).1

/-- One call of the store's API. -/
inductive Call (Item : Type) where
  | Push (key : Key) (item : Item) : Call Item
  | Get (key : Key) : Call Item
  | GetAll (bucket : String) : Call Item
  | Delete (key : Key) : Call Item

/-- The store a call leaves behind. -/
def Call.run [Inhabited Item] (s : InMem Item) : Call Item → InMem Item
  | Call.Push key item => (s.Push key item).1
  | Call.Get key => (s.Get id key).1
  | Call.GetAll bucket => (s.GetAll id bucket).1
  | Call.Delete key => (s.Delete id key).1

/-- The store left by a finite sequence of calls, made one after the other. -/
def runCalls [Inhabited Item] (s : InMem Item) (calls : List (Call Item)) : InMem Item :=
  calls.foldl Call.run s

/-- The item a store holds under a key: the entry of the bucket's inner map,
when the bucket has one. -/
def InMem.entry (s : InMem Item) (key : Key) : Option Item :=
  (s.data.lookup key.Bucket).bind (fun m => m.lookup key.ID)

/-- The reference model of the refinement claim: a flat partial map from
(bucket, id) pairs to items. -/
abbrev FlatMap (Item : Type) : Type := Finmap (fun _ : Key => Item)

/-- A call on the flat map: `Push` inserts or overwrites, `Delete` erases the
key if present, the two reads change nothing. -/
def Call.runFlat (f : FlatMap Item) : Call Item → FlatMap Item
  | Call.Push key item => f.insert key item
  | Call.Get _ => f
  | Call.GetAll _ => f
  | Call.Delete key => f.erase key

/-- The flat map left by a finite sequence of calls. -/
def runFlat (f : FlatMap Item) (calls : List (Call Item)) : FlatMap Item :=
  calls.foldl Call.runFlat f

/-! ## Reading the outer and inner maps after a write -/

theorem InMem.ext_data {a b : InMem Item} (h : a.data = b.data) : a = b := by
  cases a; cases b; simp_all

/-- The inner map of the pushed key's bucket after `Push`. -/
theorem Push_lookup_same (s : InMem Item) (K : Key) (V : Item) :
    ∃ b : GoMap Item, (s.Push K V).1.data.lookup K.Bucket = some b ∧
      b.lookup K.ID = some V ∧
      (∀ id, id ≠ K.ID → b.lookup id = (s.data.lookup K.Bucket).bind (fun m => m.lookup id)) := by
  unfold InMem.Push
  cases h : s.data.lookup K.Bucket with
  | none =>
    refine ⟨Finmap.singleton K.ID V, by simp, by simp, ?_⟩
    intro id hid
    have : id ∉ (Finmap.singleton K.ID V : GoMap Item) := by simp [hid]
    simpa using Finmap.lookup_eq_none.mpr this
  | some m =>
    refine ⟨m.insert K.ID V, by simp, by simp, ?_⟩
    intro id hid
    simp [Finmap.lookup_insert_of_ne _ hid]

/-- Other buckets are untouched by `Push`. -/
theorem Push_lookup_other (s : InMem Item) (K : Key) (V : Item) (B : String)
    (hB : B ≠ K.Bucket) : (s.Push K V).1.data.lookup B = s.data.lookup B := by
  unfold InMem.Push
  cases h : s.data.lookup K.Bucket <;> simp [Finmap.lookup_insert_of_ne _ hB]

/-- The inner maps after a successful `Delete`. -/
theorem Delete_of_lookup [Inhabited Item] (san : Option Error → ε) (s : InMem Item) (K : Key)
    (b : GoMap Item) (V : Item) (hb : s.data.lookup K.Bucket = some b)
    (hV : b.lookup K.ID = some V) :
    s.Delete san K = ({ data := s.data.insert K.Bucket (b.erase K.ID) }, V, san none) := by
  simp [InMem.Delete, hb, hV]

/-- The error an operation returns is `SanitizeError` applied to the error the
same operation returns under the identity. -/
theorem Get_sanitize [Inhabited Item] (san : Option Error → ε) (s : InMem Item) (K : Key) :
    s.Get san K = ((s.Get id K).1, (s.Get id K).2.1, san (s.Get id K).2.2) := rfl

theorem Delete_sanitize [Inhabited Item] (san : Option Error → ε) (s : InMem Item) (K : Key) :
    s.Delete san K = ((s.Delete id K).1, (s.Delete id K).2.1, san (s.Delete id K).2.2) := rfl

theorem GetAll_sanitize (san : Option Error → ε) (s : InMem Item) (B : String) :
    s.GetAll san B = ((s.GetAll id B).1, (s.GetAll id B).2.1, san (s.GetAll id B).2.2) := rfl

/-- A successful `Get` reads an entry of an inner map. -/
theorem Get_ok_iff [Inhabited Item] (s : InMem Item) (K : Key) (V : Item) :
    (s.Get id K).2 = (V, none) ↔
      ∃ b, s.data.lookup K.Bucket = some b ∧ b.lookup K.ID = some V := by
  unfold InMem.Get
  cases h : s.data.lookup K.Bucket with
  | none => simp
  | some b => cases h2 : b.lookup K.ID <;> simp [h2]

/-- The outer map after `Push`, in one expression for both branches. -/
theorem Push_data (s : InMem Item) (K : Key) (V : Item) :
    (s.Push K V).1.data =
      s.data.insert K.Bucket (((s.data.lookup K.Bucket).getD ∅).insert K.ID V) := by
  have hsingle : (Finmap.singleton K.ID V : GoMap Item) = (∅ : GoMap Item).insert K.ID V := by
    apply Finmap.ext_lookup
    intro i
    by_cases hi : i = K.ID
    · subst hi
      rw [Finmap.lookup_singleton_eq, Finmap.lookup_insert]
    · have hn : i ∉ (Finmap.singleton K.ID V : GoMap Item) := by simp [hi]
      rw [Finmap.lookup_eq_none.mpr hn, Finmap.lookup_insert_of_ne _ hi, Finmap.lookup_empty]
  unfold InMem.Push
  cases h : s.data.lookup K.Bucket <;> simp [hsingle]

/-- The buckets after `Push`: the pushed key's bucket and the buckets before. -/
theorem mem_Push (s : InMem Item) (K : Key) (V : Item) (B : String) :
    B ∈ (s.Push K V).1.data ↔ B = K.Bucket ∨ B ∈ s.data := by
  rw [Push_data, Finmap.mem_insert]

/-- The buckets after `Delete` are the buckets before. -/
theorem mem_Delete [Inhabited Item] (san : Option Error → ε) (s : InMem Item) (K : Key)
    (B : String) : B ∈ (s.Delete san K).1.data ↔ B ∈ s.data := by
  unfold InMem.Delete
  cases h : s.data.lookup K.Bucket with
  | none => simp
  | some b =>
    cases h2 : b.lookup K.ID with
    | none => simp [h2]
    | some v =>
      simp only [h2, Finmap.mem_insert]
      constructor
      · rintro (rfl | hB)
        · exact Finmap.mem_of_lookup_eq_some h
        · exact hB
      · exact Or.inr

/-- The buckets after a sequence of calls: those before and those pushed into. -/
theorem mem_runCalls [Inhabited Item] (calls : List (Call Item)) (s : InMem Item) (B : String) :
    B ∈ (runCalls s calls).data ↔
      B ∈ s.data ∨ ∃ key item, Call.Push key item ∈ calls ∧ key.Bucket = B := by
  induction calls generalizing s with
  | nil => simp [runCalls]
  | cons c cs ih =>
    have hstep : runCalls s (c :: cs) = runCalls (Call.run s c) cs := rfl
    rw [hstep, ih]
    cases c with
    | Push k v =>
      simp only [Call.run, mem_Push, List.mem_cons]
      constructor
      · rintro ((rfl | h) | ⟨k', v', hm, rfl⟩)
        · exact Or.inr ⟨k, v, Or.inl rfl, rfl⟩
        · exact Or.inl h
        · exact Or.inr ⟨k', v', Or.inr hm, rfl⟩
      · rintro (h | ⟨k', v', hm | hm, rfl⟩)
        · exact Or.inl (Or.inr h)
        · cases hm
          exact Or.inl (Or.inl rfl)
        · exact Or.inr ⟨k', v', hm, rfl⟩
    | Get k => simp [Call.run, InMem.Get]
    | GetAll b => simp [Call.run, InMem.GetAll]
    | Delete k => simp [Call.run, mem_Delete]

/-- The result of `Get` is decided by what the two lookups of the key find. -/
theorem Get_eq_of_lookups [Inhabited Item] (s t : InMem Item) (K : Key)
    (h : (s.data.lookup K.Bucket).map (fun m => m.lookup K.ID) =
      (t.data.lookup K.Bucket).map (fun m => m.lookup K.ID)) :
    (s.Get id K).2 = (t.Get id K).2 := by
  unfold InMem.Get
  cases hs : s.data.lookup K.Bucket with
  | none =>
    cases ht : t.data.lookup K.Bucket with
    | none => rfl
    | some b => simp [hs, ht] at h
  | some a =>
    cases ht : t.data.lookup K.Bucket with
    | none => simp [hs, ht] at h
    | some b =>
      have hab : a.lookup K.ID = b.lookup K.ID := by simpa [hs, ht] using h
      simp [hab]

/-- The two lookups of another key after a successful or failed `Delete`. -/
theorem Delete_lookups_other [Inhabited Item] (san : Option Error → ε) (s : InMem Item)
    (K K' : Key) (hne : K' ≠ K) :
    ((s.Delete san K).1.data.lookup K'.Bucket).map (fun m => m.lookup K'.ID) =
      (s.data.lookup K'.Bucket).map (fun m => m.lookup K'.ID) := by
  unfold InMem.Delete
  cases h : s.data.lookup K.Bucket with
  | none => simp
  | some b =>
    cases h2 : b.lookup K.ID with
    | none => simp [h2]
    | some v =>
      simp only [h2]
      by_cases hB : K'.Bucket = K.Bucket
      · have hid : K'.ID ≠ K.ID := by
          intro hid
          apply hne
          cases K
          cases K'
          simp_all
        rw [hB, Finmap.lookup_insert, h]
        simp [Finmap.lookup_erase_ne hid]
      · rw [Finmap.lookup_insert_of_ne _ hB]

/-- Two keys with the same bucket and the same id are the same key. -/
theorem Key.id_ne_of_ne {K K' : Key} (hne : K' ≠ K) (hB : K'.Bucket = K.Bucket) :
    K'.ID ≠ K.ID := by
  intro hI
  apply hne
  cases K
  cases K'
  simp_all

theorem Get_ok_iff_entry [Inhabited Item] (s : InMem Item) (K : Key) (V : Item) :
    (s.Get id K).2 = (V, none) ↔ s.entry K = some V := by
  rw [Get_ok_iff, InMem.entry, Option.bind_eq_some]

theorem Delete_ok_iff_entry [Inhabited Item] (s : InMem Item) (K : Key) (V : Item) :
    (s.Delete id K).2 = (V, none) ↔ s.entry K = some V := by
  unfold InMem.Delete InMem.entry
  cases h : s.data.lookup K.Bucket with
  | none => simp
  | some b => cases h2 : b.lookup K.ID <;> simp [h2]

/-- The entries after `Push`. -/
theorem entry_Push (s : InMem Item) (K K' : Key) (V : Item) :
    (s.Push K V).1.entry K' = if K' = K then some V else s.entry K' := by
  by_cases hK : K' = K
  · subst hK
    obtain ⟨b, hb, hV, -⟩ := Push_lookup_same s K' V
    simp [InMem.entry, hb, hV]
  · rw [if_neg hK]
    by_cases hB : K'.Bucket = K.Bucket
    · obtain ⟨b, hb, -, hrest⟩ := Push_lookup_same s K V
      unfold InMem.entry
      rw [hB, hb]
      simpa using hrest K'.ID (Key.id_ne_of_ne hK hB)
    · unfold InMem.entry
      rw [Push_lookup_other s K V K'.Bucket hB]

/-- The entries after `Delete`. -/
theorem entry_Delete [Inhabited Item] (san : Option Error → ε) (s : InMem Item) (K K' : Key) :
    (s.Delete san K).1.entry K' = if K' = K then none else s.entry K' := by
  by_cases hK : K' = K
  · subst hK
    rw [if_pos rfl]
    unfold InMem.Delete InMem.entry
    cases h : s.data.lookup K'.Bucket with
    | none => simp [h]
    | some b => cases h2 : b.lookup K'.ID <;> simp [h, h2]
  · rw [if_neg hK]
    have h := Delete_lookups_other san s K K' hK
    unfold InMem.entry
    cases h1 : (s.Delete san K).1.data.lookup K'.Bucket <;>
      cases h2 : s.data.lookup K'.Bucket <;> simp_all

/-- The store and the flat map hold the same entries after the same calls. -/
theorem entry_runCalls [Inhabited Item] (calls : List (Call Item)) (s : InMem Item)
    (f : FlatMap Item) (h : ∀ K, s.entry K = f.lookup K) (K : Key) :
    (runCalls s calls).entry K = (runFlat f calls).lookup K := by
  induction calls generalizing s f with
  | nil => exact h K
  | cons c cs ih =>
    have hs : runCalls s (c :: cs) = runCalls (Call.run s c) cs := rfl
    have hf : runFlat f (c :: cs) = runFlat (Call.runFlat f c) cs := rfl
    rw [hs, hf]
    apply ih
    intro K'
    cases c with
    | Push k v =>
      simp only [Call.run, Call.runFlat, entry_Push]
      by_cases hk : K' = k
      · subst hk
        simp
      · rw [if_neg hk, Finmap.lookup_insert_of_ne _ hk, h]
    | Get k => exact h K'
    | GetAll b => exact h K'
    | Delete k =>
      simp only [Call.run, Call.runFlat, entry_Delete]
      by_cases hk : K' = k
      · subst hk
        simp
      · rw [if_neg hk, Finmap.lookup_erase_ne hk, h]

/-! ## The claims -/

/-- C1. Insert-then-lookup: on the store left by `Push K V`, `Get K` returns `V`
and hands a nil error to sanitization, whether or not the bucket existed. -/
theorem C1_push_then_get [Inhabited Item] (san : Option Error → ε) (s : InMem Item)
    (K : Key) (V : Item) :
    (s.Push K V).2 = none ∧
      (s.Push K V).1.Get san K = ((s.Push K V).1, V, san none) := by
  obtain ⟨b, hb, hV, -⟩ := Push_lookup_same s K V
  refine ⟨?_, ?_⟩
  · unfold InMem.Push; cases s.data.lookup K.Bucket <;> rfl
  · simp [InMem.Get, hb, hV]

/-- C2. Last write wins: after `Push K V1` then `Push K V2`, `Get K` returns
`V2` with a nil error, and the store is the one `Push K V2` alone produces. -/
theorem C2_last_write_wins [Inhabited Item] (san : Option Error → ε) (s : InMem Item)
    (K : Key) (V1 V2 : Item) :
    ((s.Push K V1).1.Push K V2).1.Get san K = (((s.Push K V1).1.Push K V2).1, V2, san none) ∧
      ((s.Push K V1).1.Push K V2).1 = (s.Push K V2).1 := by
  constructor
  · obtain ⟨b, hb, hV, -⟩ := Push_lookup_same (s.Push K V1).1 K V2
    simp [InMem.Get, hb, hV]
  · apply InMem.ext_data
    unfold InMem.Push
    cases h : s.data.lookup K.Bucket <;>
      simp [Finmap.insert_insert, Finmap.insert_singleton_eq]

/-- C3. Missing bucket on lookup: the error `Get K` hands to sanitization has
root cause `ErrBucketNotFound` exactly when `K.Bucket` has no entry in the outer
map, and then it is `ItemOperationError{ErrBucketNotFound, K, "get"}`, returned
with the zero item. -/
theorem C3_get_missing_bucket [Inhabited Item] (san : Option Error → ε) (s : InMem Item)
    (K : Key) :
    ((∃ k op, (s.Get id K).2.2 = some (Error.ItemOperationError Error.ErrBucketNotFound k op)) ↔
        K.Bucket ∉ s.data) ∧
      (K.Bucket ∉ s.data →
        s.Get san K =
          (s, default, san (some (Error.ItemOperationError Error.ErrBucketNotFound K "get")))) := by
  rw [← Finmap.lookup_eq_none]
  unfold InMem.Get
  cases h : s.data.lookup K.Bucket with
  | none => simp
  | some b => cases h2 : b.lookup K.ID <;> simp [h2]

theorem C3_get_missing_bucket_witness :
    "c" ∉ sampleStore.data ∧
      sampleStore.Get id ⟨"c", "x"⟩ =
        (sampleStore, default,
          some (Error.ItemOperationError Error.ErrBucketNotFound ⟨"c", "x"⟩ "get")) :=
  ⟨by decide, (C3_get_missing_bucket id sampleStore ⟨"c", "x"⟩).2 (by decide)⟩

/-- C4. Missing item in an existing bucket: the error `Get K` hands to
sanitization has root cause `ErrItemNotFound` exactly when `K.Bucket` has an
inner map (possibly empty) that lacks `K.ID`; it is then
`ItemOperationError{ErrItemNotFound, K, "get"}`, returned with the zero item, and
its root cause is not `ErrBucketNotFound`. -/
theorem C4_get_missing_item [Inhabited Item] (san : Option Error → ε) (s : InMem Item)
    (K : Key) :
    ((∃ k op, (s.Get id K).2.2 = some (Error.ItemOperationError Error.ErrItemNotFound k op)) ↔
        ∃ b, s.data.lookup K.Bucket = some b ∧ K.ID ∉ b) ∧
      (∀ b, s.data.lookup K.Bucket = some b → K.ID ∉ b →
        s.Get san K =
            (s, default, san (some (Error.ItemOperationError Error.ErrItemNotFound K "get"))) ∧
          ∀ k op, (s.Get id K).2.2 ≠
            some (Error.ItemOperationError Error.ErrBucketNotFound k op)) := by
  simp only [← Finmap.lookup_eq_none]
  unfold InMem.Get
  cases h : s.data.lookup K.Bucket with
  | none => simp
  | some b => cases h2 : b.lookup K.ID <;> simp [h2]

theorem C4_get_missing_item_witness :
    sampleStore.data.lookup "b" = some (Finmap.singleton "x" 7) ∧
      "y" ∉ (Finmap.singleton "x" 7 : GoMap Nat) ∧
      sampleStore.Get id ⟨"b", "y"⟩ =
        (sampleStore, default,
          some (Error.ItemOperationError Error.ErrItemNotFound ⟨"b", "y"⟩ "get")) :=
  ⟨by decide, by decide,
    ((C4_get_missing_item id sampleStore ⟨"b", "y"⟩).2 (Finmap.singleton "x" 7)
      (by decide) (by decide)).1⟩

/-- C5. Delete removes and returns: on the store left by `Push K V`, `Delete K`
returns `V` with a nil error and `Get K` on the store it leaves fails with root
cause `ErrItemNotFound`; and whenever `Get K` succeeds with `V` on a store,
`Delete K` on that store returns `V` with a nil error. -/
theorem C5_delete_removes_and_returns [Inhabited Item] (san : Option Error → ε)
    (s : InMem Item) (K : Key) (V : Item) :
    (∃ t : InMem Item, (s.Push K V).1.Delete san K = (t, V, san none) ∧
        t.Get san K =
          (t, default, san (some (Error.ItemOperationError Error.ErrItemNotFound K "get")))) ∧
      ((s.Get id K).2 = (V, none) → (s.Delete san K).2 = (V, san none)) := by
  constructor
  · obtain ⟨b, hb, hV, -⟩ := Push_lookup_same s K V
    refine ⟨_, Delete_of_lookup san _ K b V hb hV, ?_⟩
    simp [InMem.Get]
  · intro h
    obtain ⟨b, hb, hV⟩ := (Get_ok_iff s K V).mp h
    rw [Delete_of_lookup san s K b V hb hV]

theorem C5_delete_removes_and_returns_witness :
    (sampleStore.Get id ⟨"b", "x"⟩).2 = (7, none) ∧
      (sampleStore.Delete id ⟨"b", "x"⟩).2 = (7, none) :=
  ⟨by decide, (C5_delete_removes_and_returns id sampleStore ⟨"b", "x"⟩ 7).2 (by decide)⟩

/-- C6. Emptied bucket is still a bucket: when `Delete (B, x)` succeeds and `x`
was the only id of bucket `B`, `GetAll B` on the store it leaves returns the
empty map with a nil error; in particular so does `GetAll B` after
`Push (B, x) V` and `Delete (B, x)` on the store of `ProvideInMem`. -/
theorem C6_emptied_bucket_still_exists [Inhabited Item] (san : Option Error → ε)
    (s : InMem Item) (B x : String) (V : Item) :
    ((s.Delete id ⟨B, x⟩).2.2 = none →
        (∀ b, s.data.lookup B = some b → ∀ i, i ∈ b → i = x) →
        (s.Delete san ⟨B, x⟩).1.GetAll san B =
          ((s.Delete san ⟨B, x⟩).1, some ∅, san none)) ∧
      ((((ProvideInMem Item).Push ⟨B, x⟩ V).1.Delete san ⟨B, x⟩).1.GetAll san B =
        ((((ProvideInMem Item).Push ⟨B, x⟩ V).1.Delete san ⟨B, x⟩).1, some ∅, san none)) := by
  have key : ∀ (t : InMem Item) (b : GoMap Item) (W : Item), t.data.lookup B = some b →
      b.lookup x = some W → (∀ i, i ∈ b → i = x) →
      (t.Delete san ⟨B, x⟩).1.GetAll san B = ((t.Delete san ⟨B, x⟩).1, some ∅, san none) := by
    intro t b W hb hW hlast
    have he : b.erase x = ∅ := by
      apply Finmap.ext_lookup
      intro i
      rw [Finmap.lookup_empty, Finmap.lookup_eq_none, Finmap.mem_erase]
      rintro ⟨hne, hmem⟩
      exact hne (hlast i hmem)
    rw [Delete_of_lookup san t ⟨B, x⟩ b W hb hW]
    simp [InMem.GetAll, he]
  constructor
  · intro hdel hlast
    have hsplit : ∃ b W, s.data.lookup B = some b ∧ b.lookup x = some W := by
      revert hdel
      unfold InMem.Delete
      cases h : s.data.lookup B with
      | none => simp
      | some b => cases h2 : b.lookup x <;> simp [h2]
    obtain ⟨b, W, hb, hW⟩ := hsplit
    exact key s b W hb hW (hlast b hb)
  · obtain ⟨b, hb, hV, hrest⟩ := Push_lookup_same (ProvideInMem Item) ⟨B, x⟩ V
    refine key _ b V hb hV ?_
    intro i hi
    by_contra hne
    have := hrest i hne
    simp [ProvideInMem] at this
    exact (Finmap.lookup_eq_none.mp this) hi

theorem C6_emptied_bucket_still_exists_witness :
    (sampleStore.Delete id ⟨"b", "x"⟩).2.2 = none ∧
      (sampleStore.Delete id ⟨"b", "x"⟩).1.GetAll id "b" =
        ((sampleStore.Delete id ⟨"b", "x"⟩).1, some ∅, none) :=
  ⟨by decide,
    (C6_emptied_bucket_still_exists id sampleStore "b" "x" 7).1 (by decide) (by
      intro b hb i hi
      have hs : sampleStore.data.lookup "b" = some (Finmap.singleton "x" 7) := by decide
      rw [hs] at hb
      cases hb
      exact (Finmap.mem_singleton i "x" 7).mp hi)⟩

/-- C7. Enumerate reflects all current items: for a bucket `B` present in the
store, `GetAll B` returns with a nil error a map `m` that maps an id to `V`
exactly when `Get (B, id)` succeeds with `V`; and after three pushes of distinct
ids `a`, `b`, `c` into `B` on the store of `ProvideInMem`, the map holds exactly
those three ids with the pushed items. -/
theorem C7_getall_reflects_items [Inhabited Item] (san : Option Error → ε)
    (s : InMem Item) (B : String) :
    (B ∈ s.data →
        ∃ m : GoMap Item, s.GetAll san B = (s, some m, san none) ∧
          ∀ i V, m.lookup i = some V ↔ (s.Get id ⟨B, i⟩).2 = (V, none)) ∧
      (∀ (a b c : String) (Va Vb Vc : Item), a ≠ b → a ≠ c → b ≠ c →
        ∃ m : GoMap Item,
          ((((ProvideInMem Item).Push ⟨B, a⟩ Va).1.Push ⟨B, b⟩ Vb).1.Push ⟨B, c⟩ Vc).1.GetAll
              san B =
            (((((ProvideInMem Item).Push ⟨B, a⟩ Va).1.Push ⟨B, b⟩ Vb).1.Push ⟨B, c⟩ Vc).1,
              some m, san none) ∧
          ∀ i V, m.lookup i = some V ↔
            (i = a ∧ V = Va) ∨ (i = b ∧ V = Vb) ∨ (i = c ∧ V = Vc)) := by
  constructor
  · intro hB
    obtain ⟨m, hm⟩ := Finmap.mem_iff.mp hB
    refine ⟨m, by simp [InMem.GetAll, hm], ?_⟩
    intro i V
    rw [Get_ok_iff]
    simp [hm]
  · intro a b c Va Vb Vc hab hac hbc
    refine ⟨((Finmap.singleton a Va : GoMap Item).insert b Vb).insert c Vc, ?_, ?_⟩
    · simp [InMem.GetAll, InMem.Push, ProvideInMem]
    · intro i V
      by_cases hic : i = c
      · subst hic
        simp [Finmap.lookup_insert, hac, hbc, eq_comm]
      · rw [Finmap.lookup_insert_of_ne _ hic]
        by_cases hib : i = b
        · subst hib
          simp [Finmap.lookup_insert, hab, hic, eq_comm]
        · rw [Finmap.lookup_insert_of_ne _ hib]
          by_cases hia : i = a
          · subst hia
            simp [Finmap.lookup_singleton_eq, hib, hic, eq_comm]
          · have hn : i ∉ (Finmap.singleton a Va : GoMap Item) := by simp [hia]
            rw [Finmap.lookup_eq_none.mpr hn]
            simp [hia, hib, hic]

theorem C7_getall_reflects_items_witness :
    "b" ∈ sampleStore.data ∧
      ∃ m : GoMap Nat, sampleStore.GetAll id "b" = (sampleStore, some m, none) ∧
        ∀ i V, m.lookup i = some V ↔ (sampleStore.Get id ⟨"b", i⟩).2 = (V, none) :=
  ⟨by decide, (C7_getall_reflects_items id sampleStore "b").1 (by decide)⟩

/-- C8. Delete is atomic on failure: when `Delete K` hands a non-nil error to
sanitization, the store it leaves is the store it was called on. -/
theorem C8_delete_failure_keeps_state [Inhabited Item] (san : Option Error → ε)
    (s : InMem Item) (K : Key) (hfail : (s.Delete id K).2.2 ≠ none) :
    (s.Delete san K).1 = s := by
  revert hfail
  unfold InMem.Delete
  cases h : s.data.lookup K.Bucket with
  | none => simp
  | some b => cases h2 : b.lookup K.ID <;> simp [h2]

theorem C8_delete_failure_keeps_state_witness :
    (sampleStore.Delete id ⟨"b", "y"⟩).2.2 ≠ none ∧
      (sampleStore.Delete id ⟨"b", "y"⟩).1 = sampleStore :=
  ⟨by decide, C8_delete_failure_keeps_state id sampleStore ⟨"b", "y"⟩ (by decide)⟩

/-- C9. Delete error classification: `Delete K` hands to sanitization
`ItemOperationError{ErrBucketNotFound, K, "delete"}` exactly when `K.Bucket` has no
entry in the outer map, `ItemOperationError{ErrItemNotFound, K, "delete"}` exactly
when the bucket is present and lacks `K.ID`, a nil error exactly when the bucket
holds `K.ID`; every non-nil error is an `ItemOperationError` with key `K`,
operation "delete" and one of the two sentinels as cause. -/
theorem C9_delete_classification [Inhabited Item] (san : Option Error → ε)
    (s : InMem Item) (K : Key) :
    ((s.Delete id K).2.2 = some (Error.ItemOperationError Error.ErrBucketNotFound K "delete") ↔
        K.Bucket ∉ s.data) ∧
      ((s.Delete id K).2.2 = some (Error.ItemOperationError Error.ErrItemNotFound K "delete") ↔
        ∃ b, s.data.lookup K.Bucket = some b ∧ K.ID ∉ b) ∧
      ((s.Delete id K).2.2 = none ↔ ∃ b, s.data.lookup K.Bucket = some b ∧ K.ID ∈ b) ∧
      (∀ e, (s.Delete id K).2.2 = some e →
        ∃ cause, e = Error.ItemOperationError cause K "delete" ∧
          (cause = Error.ErrBucketNotFound ∨ cause = Error.ErrItemNotFound)) ∧
      (s.Delete san K).2.2 = san (s.Delete id K).2.2 := by
  simp only [← Finmap.lookup_eq_none, Finmap.mem_iff]
  unfold InMem.Delete
  cases h : s.data.lookup K.Bucket with
  | none => simp
  | some b => cases h2 : b.lookup K.ID <;> simp [h2]

theorem C9_delete_classification_witness :
    (sampleStore.Delete id ⟨"b", "y"⟩).2.2 =
        some (Error.ItemOperationError Error.ErrItemNotFound ⟨"b", "y"⟩ "delete") ∧
      ∃ cause, Error.ItemOperationError Error.ErrItemNotFound ⟨"b", "y"⟩ "delete" =
          Error.ItemOperationError cause ⟨"b", "y"⟩ "delete" ∧
        (cause = Error.ErrBucketNotFound ∨ cause = Error.ErrItemNotFound) :=
  ⟨by decide, (C9_delete_classification id sampleStore ⟨"b", "y"⟩).2.2.2.1 _ (by decide)⟩

/-- C10. Missing bucket on enumeration: `GetAll B` hands a non-nil error to
sanitization exactly when `B` has no entry in the outer map; that error is
always `GetAllItemsOperationErr{ErrBucketNotFound, B}`, never an
`ItemOperationError` and never one with cause `ErrItemNotFound`, and it comes
with a nil map. -/
theorem C10_getall_missing_bucket (san : Option Error → ε) (s : InMem Item) (B : String) :
    ((s.GetAll id B).2.2 ≠ none ↔ B ∉ s.data) ∧
      (∀ e, (s.GetAll id B).2.2 = some e →
        e = Error.GetAllItemsOperationErr Error.ErrBucketNotFound B) ∧
      (∀ cause k op, (s.GetAll id B).2.2 ≠ some (Error.ItemOperationError cause k op)) ∧
      (∀ b, (s.GetAll id B).2.2 ≠ some (Error.GetAllItemsOperationErr Error.ErrItemNotFound b)) ∧
      (B ∉ s.data →
        s.GetAll san B =
          (s, none, san (some (Error.GetAllItemsOperationErr Error.ErrBucketNotFound B)))) := by
  simp only [← Finmap.lookup_eq_none]
  unfold InMem.GetAll
  cases h : s.data.lookup B <;> simp

theorem C10_getall_missing_bucket_witness :
    "c" ∉ sampleStore.data ∧
      sampleStore.GetAll id "c" =
        (sampleStore, none,
          some (Error.GetAllItemsOperationErr Error.ErrBucketNotFound "c")) :=
  ⟨by decide, (C10_getall_missing_bucket id sampleStore "c").2.2.2.2 (by decide)⟩

/-- C11. Empty result accompanies every failure: when `Get` or `Delete` hands a
non-nil error to sanitization the item it returns is the zero item, and when
`GetAll` does the map it returns is nil; the item and the map do not depend on
the sanitizer. -/
theorem C11_failure_has_empty_result [Inhabited Item] (san : Option Error → ε)
    (s : InMem Item) (K : Key) (B : String) :
    ((s.Get id K).2.2 ≠ none → (s.Get san K).2.1 = default) ∧
      ((s.Delete id K).2.2 ≠ none → (s.Delete san K).2.1 = default) ∧
      ((s.GetAll id B).2.2 ≠ none → (s.GetAll san B).2.1 = none) := by
  refine ⟨?_, ?_, ?_⟩
  · unfold InMem.Get
    cases h : s.data.lookup K.Bucket with
    | none => simp
    | some b => cases h2 : b.lookup K.ID <;> simp [h2]
  · unfold InMem.Delete
    cases h : s.data.lookup K.Bucket with
    | none => simp
    | some b => cases h2 : b.lookup K.ID <;> simp [h2]
  · unfold InMem.GetAll
    cases h : s.data.lookup B <;> simp

theorem C11_failure_has_empty_result_witness :
    (sampleStore.Get id ⟨"b", "y"⟩).2.2 ≠ none ∧ (sampleStore.Get id ⟨"b", "y"⟩).2.1 = 0 ∧
      (sampleStore.Delete id ⟨"c", "x"⟩).2.2 ≠ none ∧
      (sampleStore.Delete id ⟨"c", "x"⟩).2.1 = 0 ∧
      (sampleStore.GetAll id "c").2.2 ≠ none ∧ (sampleStore.GetAll id "c").2.1 = none :=
  ⟨by decide,
    (C11_failure_has_empty_result id sampleStore ⟨"b", "y"⟩ "c").1 (by decide),
    by decide,
    (C11_failure_has_empty_result id sampleStore ⟨"c", "x"⟩ "c").2.1 (by decide),
    by decide,
    (C11_failure_has_empty_result id sampleStore ⟨"c", "x"⟩ "c").2.2 (by decide)⟩

/-- C12. Bucket existence is derived from inserts only: after any finite
sequence of calls on the store of `ProvideInMem`, a bucket `B` has an entry in
the outer map exactly when the sequence holds a `Push` whose key has bucket
`B`; `Get`, `GetAll` and `Delete` leave the set of buckets as it was; and `B`
has an entry exactly when `GetAll B` hands a nil error to sanitization, and
exactly when `Get` and `Delete` on a key of `B` do not report `ErrBucketNotFound`. -/
theorem C12_bucket_existence [Inhabited Item] (calls : List (Call Item)) (B : String) :
    (B ∈ (runCalls (ProvideInMem Item) calls).data ↔
        ∃ key item, Call.Push key item ∈ calls ∧ key.Bucket = B) ∧
      (∀ (s : InMem Item) (K : Key) (B' : String),
        (B ∈ (s.Delete id K).1.data ↔ B ∈ s.data) ∧
          (B ∈ (s.Get id K).1.data ↔ B ∈ s.data) ∧
          (B ∈ (s.GetAll id B').1.data ↔ B ∈ s.data)) ∧
      (∀ s : InMem Item, B ∈ s.data ↔ (s.GetAll id B).2.2 = none) ∧
      (∀ (s : InMem Item) (i : String),
        (B ∈ s.data ↔ (s.Get id ⟨B, i⟩).2.2 ≠
            some (Error.ItemOperationError Error.ErrBucketNotFound ⟨B, i⟩ "get")) ∧
          (B ∈ s.data ↔ (s.Delete id ⟨B, i⟩).2.2 ≠
            some (Error.ItemOperationError Error.ErrBucketNotFound ⟨B, i⟩ "delete"))) := by
  refine ⟨?_, ?_, ?_, ?_⟩
  · rw [mem_runCalls]
    have hempty : B ∉ (ProvideInMem Item).data := Finmap.not_mem_empty
    simp [hempty]
  · intro s K B'
    exact ⟨mem_Delete id s K B, Iff.rfl, Iff.rfl⟩
  · intro s
    rw [Finmap.mem_iff]
    unfold InMem.GetAll
    cases h : s.data.lookup B <;> simp
  · intro s i
    rw [Finmap.mem_iff]
    unfold InMem.Get InMem.Delete
    cases h : s.data.lookup B with
    | none => simp
    | some b => cases h2 : b.lookup i <;> simp [h2]

/-- C13. Insert always succeeds: `Push` returns a nil error for every store,
key and item, the key with two empty strings included. -/
theorem C13_push_always_succeeds (s : InMem Item) (K : Key) (V : Item) :
    (s.Push K V).2 = none ∧ (s.Push ⟨"", ""⟩ V).2 = none := by
  unfold InMem.Push
  constructor
  · cases s.data.lookup K.Bucket <;> rfl
  · cases s.data.lookup "" <;> rfl

/-- C14. Construction yields an empty store: on the store of `ProvideInMem`,
`Get K` and `Delete K` return the zero item and `GetAll B` a nil map, each with
root cause `ErrBucketNotFound` in its wrapper; no bucket has an entry. -/
theorem C14_construction_is_empty [Inhabited Item] (san : Option Error → ε) (K : Key)
    (B : String) :
    (ProvideInMem Item).Get san K =
        (ProvideInMem Item, default,
          san (some (Error.ItemOperationError Error.ErrBucketNotFound K "get"))) ∧
      (ProvideInMem Item).Delete san K =
        (ProvideInMem Item, default,
          san (some (Error.ItemOperationError Error.ErrBucketNotFound K "delete"))) ∧
      (ProvideInMem Item).GetAll san B =
        (ProvideInMem Item, none,
          san (some (Error.GetAllItemsOperationErr Error.ErrBucketNotFound B))) ∧
      B ∉ (ProvideInMem Item).data := by
  simp [InMem.Get, InMem.Delete, InMem.GetAll, ProvideInMem, Finmap.not_mem_empty]

/-- C15. Reads have no side effects: the store left by `Get K` and the store
left by `GetAll B` are the store they were called on, whether they fail or not. -/
theorem C15_reads_keep_state [Inhabited Item] (san : Option Error → ε) (s : InMem Item)
    (K : Key) (B : String) :
    (s.Get san K).1 = s ∧ (s.GetAll san B).1 = s :=
  ⟨rfl, rfl⟩

/-- C17. Push frame: for `K'` other than `K`, `Get K'` succeeds with `W` after
`Push K V` exactly when it did before. When the buckets differ, or the bucket of
`K` was already present, the item and error of `Get K'` are unchanged; when
`K'` is in the bucket of `K` and that bucket was absent, `Get K'` fails before
with cause `ErrBucketNotFound` and after with cause `ErrItemNotFound`. -/
theorem C17_push_frame [Inhabited Item] (s : InMem Item) (K K' : Key) (V : Item)
    (hne : K' ≠ K) :
    (∀ W, ((s.Push K V).1.Get id K').2 = (W, none) ↔ (s.Get id K').2 = (W, none)) ∧
      (K'.Bucket ≠ K.Bucket → ((s.Push K V).1.Get id K').2 = (s.Get id K').2) ∧
      (K'.Bucket = K.Bucket → K.Bucket ∈ s.data →
        ((s.Push K V).1.Get id K').2 = (s.Get id K').2) ∧
      (K'.Bucket = K.Bucket → K.Bucket ∉ s.data →
        (s.Get id K').2 =
            (default, some (Error.ItemOperationError Error.ErrBucketNotFound K' "get")) ∧
          ((s.Push K V).1.Get id K').2 =
            (default, some (Error.ItemOperationError Error.ErrItemNotFound K' "get"))) := by
  have hother : K'.Bucket ≠ K.Bucket → ((s.Push K V).1.Get id K').2 = (s.Get id K').2 := by
    intro hB
    apply Get_eq_of_lookups
    rw [Push_lookup_other s K V K'.Bucket hB]
  have hid : K'.Bucket = K.Bucket → K'.ID ≠ K.ID := by
    intro hB hI
    apply hne
    cases K
    cases K'
    simp_all
  obtain ⟨b, hb, -, hrest⟩ := Push_lookup_same s K V
  refine ⟨?_, hother, ?_, ?_⟩
  · intro W
    by_cases hB : K'.Bucket = K.Bucket
    · rw [Get_ok_iff, Get_ok_iff, hB, hb]
      have := hrest K'.ID (hid hB)
      cases hs : s.data.lookup K.Bucket <;> simp [hs] at this <;> simp [this]
    · rw [hother hB]
  · intro hB hmem
    obtain ⟨m, hm⟩ := Finmap.mem_iff.mp hmem
    apply Get_eq_of_lookups
    rw [hB, hb, hm]
    simpa [hm] using hrest K'.ID (hid hB)
  · intro hB hmem
    have hnone : s.data.lookup K.Bucket = none := Finmap.lookup_eq_none.mpr hmem
    have hb' : b.lookup K'.ID = none := by simpa [hnone] using hrest K'.ID (hid hB)
    rw [← hB] at hnone hb
    constructor
    · simp [InMem.Get, hnone]
    · simp [InMem.Get, hb, hb']

theorem C17_push_frame_witness :
    ((ProvideInMem Nat).Get id ⟨"b", "y"⟩).2 =
        (default, some (Error.ItemOperationError Error.ErrBucketNotFound ⟨"b", "y"⟩ "get")) ∧
      (((ProvideInMem Nat).Push ⟨"b", "x"⟩ 7).1.Get id ⟨"b", "y"⟩).2 =
        (default, some (Error.ItemOperationError Error.ErrItemNotFound ⟨"b", "y"⟩ "get")) :=
  (C17_push_frame (ProvideInMem Nat) ⟨"b", "x"⟩ ⟨"b", "y"⟩ 7 (by decide)).2.2.2 rfl
    (by decide)

/-- C18. Delete frame: for `K'` other than `K`, the item and error of `Get K'`
on the store left by `Delete K` are those on the store before, whether `Delete`
succeeded or not; a successful `Delete K` leaves `Get K` failing with cause
`ErrItemNotFound` and leaves the set of buckets as it was. -/
theorem C18_delete_frame [Inhabited Item] (san : Option Error → ε) (s : InMem Item)
    (K K' : Key) (hne : K' ≠ K) :
    ((s.Delete san K).1.Get id K').2 = (s.Get id K').2 ∧
      ((s.Delete id K).2.2 = none →
        ((s.Delete san K).1.Get id K).2 =
            (default, some (Error.ItemOperationError Error.ErrItemNotFound K "get")) ∧
          ∀ B, B ∈ (s.Delete san K).1.data ↔ B ∈ s.data) := by
  refine ⟨Get_eq_of_lookups _ _ _ (Delete_lookups_other san s K K' hne), ?_⟩
  intro hok
  refine ⟨?_, fun B => mem_Delete san s K B⟩
  revert hok
  unfold InMem.Delete
  cases h : s.data.lookup K.Bucket with
  | none => simp
  | some b =>
    cases h2 : b.lookup K.ID with
    | none => simp [h2]
    | some v => simp [h2, InMem.Get]

theorem C18_delete_frame_witness :
    ((((sampleStore.Push ⟨"b", "y"⟩ 8).1.Delete id ⟨"b", "x"⟩).1.Get id ⟨"b", "y"⟩).2 =
        (8, none)) ∧
      (((sampleStore.Push ⟨"b", "y"⟩ 8).1.Get id ⟨"b", "y"⟩).2 = (8, none)) :=
  ⟨((C18_delete_frame id (sampleStore.Push ⟨"b", "y"⟩ 8).1 ⟨"b", "x"⟩ ⟨"b", "y"⟩
      (by decide)).1).trans (by decide), by decide⟩

/-- C19. Refinement to a flat map: after the same finite sequence of calls on
the store of `ProvideInMem` and on the empty flat map, `Get K` succeeds with `V`
exactly when the flat map holds `V` at `K`, and so does `Delete K`; where the
flat map holds nothing at `K`, `Get K` fails with one of the two not-found
causes. -/
theorem C19_refines_flat_map [Inhabited Item] (calls : List (Call Item)) (K : Key) (V : Item) :
    (((runCalls (ProvideInMem Item) calls).Get id K).2 = (V, none) ↔
        (runFlat ∅ calls).lookup K = some V) ∧
      (((runCalls (ProvideInMem Item) calls).Delete id K).2 = (V, none) ↔
        (runFlat ∅ calls).lookup K = some V) ∧
      ((runFlat (∅ : FlatMap Item) calls).lookup K = none →
        ((runCalls (ProvideInMem Item) calls).Get id K).2 =
            (default, some (Error.ItemOperationError Error.ErrBucketNotFound K "get")) ∨
          ((runCalls (ProvideInMem Item) calls).Get id K).2 =
            (default, some (Error.ItemOperationError Error.ErrItemNotFound K "get"))) := by
  have hrel : (runCalls (ProvideInMem Item) calls).entry K = (runFlat ∅ calls).lookup K := by
    apply entry_runCalls
    intro K'
    simp [InMem.entry, ProvideInMem]
  refine ⟨?_, ?_, ?_⟩
  · rw [Get_ok_iff_entry, hrel]
  · rw [Delete_ok_iff_entry, hrel]
  · rw [← hrel]
    unfold InMem.entry InMem.Get
    cases h : (runCalls (ProvideInMem Item) calls).data.lookup K.Bucket with
    | none => simp
    | some b => cases h2 : b.lookup K.ID <;> simp [h2]

theorem C19_refines_flat_map_witness :
    (runFlat (∅ : FlatMap Nat) [Call.Push ⟨"b", "x"⟩ 7, Call.Delete ⟨"b", "x"⟩]).lookup
        ⟨"b", "x"⟩ = none ∧
      (((runCalls (ProvideInMem Nat) [Call.Push ⟨"b", "x"⟩ 7, Call.Delete ⟨"b", "x"⟩]).Get id
            ⟨"b", "x"⟩).2 =
          (default, some (Error.ItemOperationError Error.ErrBucketNotFound ⟨"b", "x"⟩ "get")) ∨
        ((runCalls (ProvideInMem Nat) [Call.Push ⟨"b", "x"⟩ 7, Call.Delete ⟨"b", "x"⟩]).Get id
            ⟨"b", "x"⟩).2 =
          (default, some (Error.ItemOperationError Error.ErrItemNotFound ⟨"b", "x"⟩ "get"))) :=
  ⟨by decide,
    (C19_refines_flat_map [Call.Push ⟨"b", "x"⟩ 7, Call.Delete ⟨"b", "x"⟩] ⟨"b", "x"⟩ 0).2.2
      (by decide)⟩

/-- C20. Pushes to distinct keys commute: for `K1` other than `K2`, the store
after `Push K1 V1` then `Push K2 V2` is the store after `Push K2 V2` then
`Push K1 V1`, and on it `Get K1` returns `V1` and `Get K2` returns `V2`, each
with a nil error. -/
theorem C20_pushes_commute [Inhabited Item] (san : Option Error → ε) (s : InMem Item)
    (K1 K2 : Key) (V1 V2 : Item) (hne : K1 ≠ K2) :
    ((s.Push K1 V1).1.Push K2 V2).1 = ((s.Push K2 V2).1.Push K1 V1).1 ∧
      (((s.Push K1 V1).1.Push K2 V2).1.Get san K1).2 = (V1, san none) ∧
      (((s.Push K1 V1).1.Push K2 V2).1.Get san K2).2 = (V2, san none) := by
  have hcomm : ((s.Push K1 V1).1.Push K2 V2).1 = ((s.Push K2 V2).1.Push K1 V1).1 := by
    apply InMem.ext_data
    rw [Push_data, Push_data, Push_data (s.Push K2 V2).1, Push_data s K2]
    by_cases hB : K1.Bucket = K2.Bucket
    · have hI : K1.ID ≠ K2.ID := Key.id_ne_of_ne hne hB
      rw [hB]
      simp only [Finmap.lookup_insert, Finmap.insert_insert, Option.getD_some]
      rw [Finmap.insert_insert_of_ne _ hI]
    · have hB' : K2.Bucket ≠ K1.Bucket := fun h => hB h.symm
      rw [Finmap.lookup_insert_of_ne _ hB', Finmap.lookup_insert_of_ne _ hB,
        Finmap.insert_insert_of_ne _ hB]
  refine ⟨hcomm, ?_, ?_⟩
  · rw [hcomm]
    obtain ⟨b, hb, hV, -⟩ := Push_lookup_same (s.Push K2 V2).1 K1 V1
    simp [InMem.Get, hb, hV]
  · obtain ⟨b, hb, hV, -⟩ := Push_lookup_same (s.Push K1 V1).1 K2 V2
    simp [InMem.Get, hb, hV]

theorem C20_pushes_commute_witness :
    (⟨"b", "x"⟩ : Key) ≠ ⟨"b", "y"⟩ ∧
      (((ProvideInMem Nat).Push ⟨"b", "x"⟩ 1).1.Push ⟨"b", "y"⟩ 2).1 =
        (((ProvideInMem Nat).Push ⟨"b", "y"⟩ 2).1.Push ⟨"b", "x"⟩ 1).1 :=
  ⟨by decide,
    (C20_pushes_commute id (ProvideInMem Nat) ⟨"b", "x"⟩ ⟨"b", "y"⟩ 1 2 (by decide)).1⟩

end inmem
